import Mathlib

/-!
Verification development for `bin/LDA.py` of the qiime-tools repository.

The script assembles an LDA input matrix from either a distance-matrix file
or a biom feature table, runs scikit-learn LinearDiscriminantAnalysis on it,
and renders a 2D or 3D scatter plot.  We shallowly embed the data model and
the control flow of `plot_LDA`, `run_LDA` and the assembly part of `main`.

Modelling conventions:
  * pandas dataframe cells are `Cell` (a string label or a rational number);
    numeric matrices use `Rat` entries (the floating point values themselves
    never influence control flow in the script);
  * `sys.exit(msg)` and uncaught exceptions are both modelled as
    `Except.error msg`: in either case the process aborts with a non-zero
    status and the save/display step at the end of `plot_LDA` is not reached;
  * matplotlib calls are recorded in a `PlotOutput` structure (scatter
    series, annotations, axis labels, y-limits, informational messages
    printed, and the final save-or-show action) instead of drawing;
  * scikit-learn is external: it is an abstract `LDAModel` parameter giving
    `fit_transform` and the optional `explained_variance_ratio_` attribute
    (absence of the attribute, i.e. the AttributeError branch, is `none`);
  * phylotoast `relative_abundance` / `arcsine_sqrt_transform` are external:
    they appear as abstract function parameters of the biom path.
-/

namespace LDATools

/-- A pandas dataframe cell: the "Condition" column holds strings, every
other column of the assembled matrix holds numbers. -/
inductive Cell where
  | str : String → Cell
  | num : Rat → Cell
deriving DecidableEq

/-- Third component returned by `run_LDA`: either the sentinel string "NA"
(returned when the fitted estimator has no `explained_variance_ratio_`
attribute) or the array of per-axis explained variance ratios. -/
inductive ExpVar where
  | NA : ExpVar
  | ratios : List Rat → ExpVar
deriving DecidableEq

/-- An axis label as produced by the `set_xlabel` / `set_ylabel` /
`set_zlabel` calls: either the bare text "LD<k>" or
"LD<k> (Percent Explained Variance: <r>%)" where `r` is the recorded
percentage `exp_var[k-1]*100`. -/
inductive AxisLabel where
  | bare : Nat → AxisLabel
  | withVar : Nat → Rat → AxisLabel
deriving DecidableEq

/-- One `ax.scatter` call: the group it belongs to, its colour, and the
plotted coordinate lists (`zs = none` for 2D scatters). -/
structure Scatter where
  group : String
  color : String
  xs : List Rat
  ys : List Rat
  zs : Option (List Rat)
deriving DecidableEq

/-- The final step of `plot_LDA`: `plt.savefig(out_fp, facecolor=fc, ...)`
when an output path was given, `plt.show()` otherwise. -/
inductive OutputAction where
  | saved : String → String → OutputAction
  | shown : OutputAction
deriving DecidableEq

/-- Everything `plot_LDA` does to the figure, recorded instead of drawn. -/
structure PlotOutput where
  infoMsgs : List String
  scatters : List Scatter
  annotations : List (String × Rat × Rat)
  ylim : Option (Rat × Rat)
  xlabel : AxisLabel
  ylabel : AxisLabel
  zlabel : Option AxisLabel
  output : OutputAction
deriving DecidableEq

/-- A numeric table indexed by sample ID (a parsed distance-matrix file, or
the sample-by-feature table obtained from the biom pipeline after the
pandas transpose): one row of numbers per sample. -/
structure SampleTable where
  index : List String
  columns : List String
  rows : List (List Rat)
deriving DecidableEq

/-- A pandas dataframe as handed to `run_LDA` / `to_csv`: sample index,
column names, and one list of cells per sample row. -/
structure DataFrame where
  index : List String
  columns : List String
  rows : List (List Cell)
deriving DecidableEq

/-- Abstract scikit-learn `LinearDiscriminantAnalysis` estimator:
`fitTransform` is `fit_transform(X, y)`, and `explainedVarianceRatio X y`
is the `explained_variance_ratio_` attribute after that fit (`none` when
reading the attribute raises AttributeError). -/
structure LDAModel where
  fitTransform : List (List Cell) → List Cell → List (List Rat)
  explainedVarianceRatio : List (List Cell) → List Cell → Option (List Rat)

/-- `X.shape[1]`: number of columns of the transformed coordinate matrix.
All rows have equal length for a numpy 2D array, so the head row decides. -/
def shape1 (X : List (List Rat)) : Nat := (X.headD []).length

/-- `X_lda[:, j][y_lda == target]`: column `j` of the rows whose label
equals the given group name. -/
def filterColumn (X : List (List Rat)) (y : List Cell) (j : Nat)
    (target : String) : List Rat :=
  ((X.zip y).filter (fun p => decide (p.2 = Cell.str target))).map
    (fun p => p.1.getD j 0)

/-- `cats.index(group)`: position of a group label in the colour-map key
list; `none` models the uncaught ValueError when the label is absent (or is
not a string at all). -/
def catIndex (cats : List String) : Cell → Option Nat
  | Cell.str s => if s ∈ cats then some (cats.indexOf s) else none
  | Cell.num _ => none

/-- Message printed by `sys.exit` when 3D is requested with fewer than 3
discriminant axes. -/
def msg3D : String :=
  "\nLinear Discriminant Analysis requires at least 4 groups of samples to create a 3D figure. Please update group information or use the default 2D view of the results.\n"

/-- Informational message printed when point annotation is requested in 3D
mode. -/
def annotMsg3D : String := "\nPoint annotations are available only for 2D figures.\n"

/-- Stands for the uncaught ValueError raised by `cats.index(group)` inside
the annotation loop (after the `finally` block runs, the process dies). -/
def annotValueError : String := "ValueError: group is not in list"

/-- The try/except around each `set_<axis>label` call: format
"LD<k+1> (Percent Explained Variance: exp_var[k]*100 %)" and fall back to
the bare "LD<k+1>" on any exception (IndexError for a short ratio list,
ValueError when formatting the "NA" sentinel string). -/
def axisLabel (expVar : ExpVar) (k : Nat) : AxisLabel :=
  match expVar with
  | ExpVar.NA => AxisLabel.bare (k + 1)
  | ExpVar.ratios ev =>
    match ev.get? k with
    | some r => AxisLabel.withVar (k + 1) (r * 100)
    | none => AxisLabel.bare (k + 1)

/-- One annotation of the 2D annotation loop body: keep the first two
coordinates when the point has at least two, otherwise substitute
`(point[0], cats.index(group) + 1)`; `none` models the uncaught IndexError
(empty point) or ValueError (label not among the colour-map keys). -/
def annotatePoint (cats : List String) (sample : String) (point : List Rat)
    (group : Cell) : Option (String × Rat × Rat) :=
  if 2 ≤ point.length then some (sample, point.getD 0 0, point.getD 1 0)
  else
    point.head?.bind (fun p0 =>
      (catIndex cats group).map (fun ix => (sample, p0, (ix : Rat) + 1)))

/-- The 2D annotation loop `for sample, point, group in zip(sids, X_lda,
y_lda)` (zip stops at the shortest argument). -/
def annotations2D (cats : List String) :
    List String → List (List Rat) → List Cell →
    Option (List (String × Rat × Rat))
  | sample :: ss, point :: ps, group :: gs =>
    (annotatePoint cats sample point group).bind (fun a =>
      (annotations2D cats ss ps gs).map (fun rest => a :: rest))
  | _, _, _ => some []

/-- `class_colors[target_name]` for a key of the map. -/
def colorOf (class_colors : List (String × String)) (c : String) : String :=
  (class_colors.lookup c).getD ""

/-- The scatter of one group in the 2D branch: `cat_x` is column 0 of the
rows of that group; `cat_y` is `np.ones((n,1)) + i` (the constant `i + 1`)
when the matrix has a single column, column 1 of those rows otherwise. -/
def scatter2D (X : List (List Rat)) (y : List Cell)
    (class_colors : List (String × String)) (i : Nat) (c : String) : Scatter :=
  let xs := filterColumn X y 0 c
  { group := c
    color := colorOf class_colors c
    xs := xs
    ys := if shape1 X = 1 then List.replicate xs.length ((i : Rat) + 1)
          else filterColumn X y 1 c
    zs := none }

/-- The scatter of one group in the 3D branch: columns 0, 1 and 2 of the
rows of that group. -/
def scatter3D (X : List (List Rat)) (y : List Cell)
    (class_colors : List (String × String)) (c : String) : Scatter :=
  { group := c
    color := colorOf class_colors c
    xs := filterColumn X y 0 c
    ys := filterColumn X y 1 c
    zs := some (filterColumn X y 2 c) }

/-- The tail of `plot_LDA` common to both branches: the single-column
y-limit, the LD1/LD2 labels with their try/except fallback, the facecolor
chosen by the ggplot2-style flag, and the final save-or-show step. -/
def finishPlot (scatters : List Scatter) (annots : List (String × Rat × Rat))
    (infos : List String) (zlab : Option AxisLabel) (X : List (List Rat))
    (exp_var : ExpVar) (style : Bool) (dim : Nat) (out_fp : String) :
    PlotOutput :=
  { infoMsgs := infos
    scatters := scatters
    annotations := annots
    ylim := if shape1 X = 1 then some ((1 : Rat) / 2, (5 : Rat) / 2) else none
    xlabel := axisLabel exp_var 0
    ylabel := axisLabel exp_var 1
    zlabel := zlab
    output :=
      if out_fp ≠ "" then
        OutputAction.saved out_fp (if dim = 2 ∧ style then "0.8" else "none")
      else OutputAction.shown }

/-- Shallow embedding of `plot_LDA` (bin/LDA.py lines 45-121).  The purely
cosmetic pass-through arguments (figure size, font size, label padding,
point size, 3D viewing angles) do not influence any recorded observable and
are omitted.  `Except.error` is reaching `sys.exit` or an uncaught
exception: the save/display step is not reached and no file is written. -/
def plot_LDA (X_lda : List (List Rat)) (y_lda : List Cell)
    (class_colors : List (String × String)) (exp_var : ExpVar) (style : Bool)
    (sids : Option (List String)) (dim : Nat) (out_fp : String) :
    Except String PlotOutput :=
  let cats := class_colors.map Prod.fst
  if dim = 3 then
    if shape1 X_lda < 3 then Except.error msg3D
    else
      let infos := if sids.isSome then [annotMsg3D] else []
      let scatters := cats.map (scatter3D X_lda y_lda class_colors)
      Except.ok (finishPlot scatters [] infos (some (axisLabel exp_var 2))
        X_lda exp_var style dim out_fp)
  else
    let scatters := cats.enum.map (fun p => scatter2D X_lda y_lda class_colors p.1 p.2)
    match sids with
    | none =>
      Except.ok (finishPlot scatters [] [] none X_lda exp_var style dim out_fp)
    | some s =>
      match annotations2D cats s X_lda y_lda with
      | none => Except.error annotValueError
      | some annots =>
        Except.ok (finishPlot scatters annots [] none X_lda exp_var style dim out_fp)

/-- `df["Condition"].values`: the column named "Condition", looked up by
name in the column list (the assembled dataframes always carry it at
position 0). -/
def getCol (df : DataFrame) (name : String) : List Cell :=
  df.rows.map (fun r => r.getD (df.columns.indexOf name) (Cell.str ""))

/-- Shallow embedding of `run_LDA` (bin/LDA.py lines 124-142):
`X = df.iloc[:, 1:].values` drops the first column positionally,
`y = df["Condition"].values` takes the column named "Condition"; the
try/except around `explained_variance_ratio_` returns the "NA" sentinel
instead of raising when the attribute is missing. -/
def run_LDA (lda : LDAModel) (df : DataFrame) :
    List (List Rat) × List Cell × ExpVar :=
  let X := df.rows.map (fun r => r.drop 1)
  let y := getCol df "Condition"
  let X_lda := lda.fitTransform X y
  match lda.explainedVarianceRatio X y with
  | none => (X_lda, y, ExpVar.NA)
  | some ev => (X_lda, y, ExpVar.ratios ev)

/-- `Set3_12.hex_colors` from palettable (colorbrewer qualitative Set3 with
12 classes), the palette cycled to auto-assign group colours. -/
def Set3_12_hex : List String :=
  ["#8DD3C7", "#FFFFB3", "#BEBADA", "#FB8072", "#80B1D3", "#FDB462",
   "#B3DE69", "#FCCDE5", "#D9D9D9", "#BC80BD", "#CCEBC5", "#FFED6F"]

/-- The set comprehension of bin/LDA.py line 211: the distinct values of
the group column over all metadata rows.  Python sets are unordered; the
deduplicated list carries the same membership. -/
def categoriesOf (imap : List (String × List String)) (ci : Nat) :
    List String :=
  (imap.map (fun kv => kv.2.getD ci "")).dedup

/-- The dict comprehension of bin/LDA.py lines 212-213: each category draws
the next colour from `cycle(Set3_12.hex_colors)`, so the k-th category gets
palette colour `k mod 12`. -/
def autoClassColors (cats : List String) : List (String × String) :=
  cats.enum.map (fun p => (p.2, Set3_12_hex.getD (p.1 % 12) ""))

/-- `imap[str(sid)][category_idx]`: `none` models the uncaught KeyError
when the sample ID has no metadata entry. -/
def lookupGroup (imap : List (String × List String)) (ci : Nat)
    (sid : String) : Option String :=
  (imap.lookup sid).map (fun row => row.getD ci "")

/-- The list comprehension `[imap[str(sid)][category_idx] for sid in
dm_data.index]`: `none` as soon as one lookup raises. -/
def lookupConditions (imap : List (String × List String)) (ci : Nat) :
    List String → Option (List String)
  | [] => some []
  | sid :: rest =>
    match lookupGroup imap ci sid with
    | none => none
    | some g =>
      (lookupConditions imap ci rest).map (fun gs => g :: gs)

/-- `df.insert(0, "Condition", conds)`: prepend the "Condition" column to a
numeric sample table, turning it into the dataframe handed to `run_LDA`
(and to `to_csv` when requested). -/
def insertCondition (conds : List String) (t : SampleTable) : DataFrame :=
  { index := t.index
    columns := "Condition" :: t.columns
    rows := List.zipWith (fun c r => Cell.str c :: r.map Cell.num) conds t.rows }

/-- Assembly of the LDA input in the distance-matrix path (bin/LDA.py lines
217-223): the rows of the parsed file are used as-is, only the "Condition"
column is prepended. -/
def assemble_dm (imap : List (String × List String)) (ci : Nat)
    (dm : SampleTable) : Option DataFrame :=
  (lookupConditions imap ci dm.index).map (fun conds => insertCondition conds dm)

/-- Assembly of the LDA input in the feature-table path (bin/LDA.py lines
234-244): the biom table goes through `bc.relative_abundance` then
`bc.arcsine_sqrt_transform` (external phylotoast functions, abstracted as
parameters; the pandas transpose to a sample-indexed table is folded into
the `SampleTable` orientation) before the "Condition" column is prepended
the same way. -/
def assemble_biom (relAbd arcsineSqrt : SampleTable → SampleTable)
    (imap : List (String × List String)) (ci : Nat) (biomf : SampleTable) :
    Option DataFrame :=
  let t := arcsineSqrt (relAbd biomf)
  (lookupConditions imap ci t.index).map (fun conds => insertCondition conds t)

/-- The distance-matrix path of `main` from assembly to `run_LDA`
(bin/LDA.py lines 223-231): optionally record the `to_csv` side effect
(saved path together with the dataframe written there), then run the LDA.
`none` models the uncaught KeyError during assembly. -/
def mainDM (lda : LDAModel) (imap : List (String × List String)) (ci : Nat)
    (dm : SampleTable) (saveOpt : Option String) :
    Option (Option (String × DataFrame) ×
      (List (List Rat) × List Cell × ExpVar)) :=
  (assemble_dm imap ci dm).map (fun df =>
    (saveOpt.map (fun fp => (fp, df)), run_LDA lda df))

/-! Concrete data reused by several witness theorems: a four-sample
metadata map over two groups and a small distance matrix. -/

/-- A concrete metadata map: sample IDs s1..s4 over groups A and B. -/
def wImap : List (String × List String) :=
  [("s1", ["s1", "A"]), ("s2", ["s2", "B"]),
   ("s3", ["s3", "A"]), ("s4", ["s4", "B"])]

/-- A concrete 4 by 4 distance matrix over those samples. -/
def wDM : SampleTable :=
  { index := ["s1", "s2", "s3", "s4"]
    columns := ["s1", "s2", "s3", "s4"]
    rows := [[0, 1, 2, 3], [1, 0, 1, 2], [2, 1, 0, 1], [3, 2, 1, 0]] }

/-- A concrete colour map for groups A and B. -/
def wColors : List (String × String) := [("A", "#8DD3C7"), ("B", "#FFFFB3")]

/-- A concrete abstract estimator: projects every sample onto one axis and
exposes no variance ratios. -/
def wLDA : LDAModel :=
  { fitTransform := fun X _ => X.map (fun r => [(r.length : Rat)])
    explainedVarianceRatio := fun _ _ => none }

/-- Claim C1: requesting a 3D figure when the transformed coordinate
matrix has fewer than 3 columns makes `plot_LDA` abort through `sys.exit`
with the descriptive insufficient-groups message; the save/display step at
the end of `plot_LDA` is never reached, so no output image is written. -/
theorem C1_dim3_insufficient_axes_aborts (X : List (List Rat)) (y : List Cell)
    (cc : List (String × String)) (ev : ExpVar) (style : Bool)
    (sids : Option (List String)) (out_fp : String)
    (h : shape1 X < 3) :
    plot_LDA X y cc ev style sids 3 out_fp = Except.error msg3D := by
  simp [plot_LDA, h]

/-- Witness for C1: a one-column coordinate matrix over two groups,
rendered in 3D with an output path, aborts with the message. -/
theorem C1_witness :
    shape1 [[1], [2], [3], [4]] < 3 ∧
    plot_LDA [[1], [2], [3], [4]]
      [Cell.str "A", Cell.str "B", Cell.str "A", Cell.str "B"]
      wColors ExpVar.NA false none 3 "plot.png" = Except.error msg3D :=
  ⟨by decide, C1_dim3_insufficient_axes_aborts _ _ _ _ _ _ _ (by decide)⟩

/-- Claim C9: sample-ID annotation requested together with 3D mode (and
enough axes) prints the informational message, performs no point
annotation, and does not abort: the figure is still rendered and then
saved (when an output path was given) or displayed. -/
theorem C9_annotation_in_3d_warns_and_continues (X : List (List Rat))
    (y : List Cell) (cc : List (String × String)) (ev : ExpVar) (style : Bool)
    (s : List String) (out_fp : String) (h : 3 ≤ shape1 X) :
    ∃ po, plot_LDA X y cc ev style (some s) 3 out_fp = Except.ok po ∧
      po.infoMsgs = [annotMsg3D] ∧ po.annotations = [] ∧
      po.output = (if out_fp ≠ "" then OutputAction.saved out_fp "none"
                   else OutputAction.shown) := by
  have h3 : ¬ shape1 X < 3 := Nat.not_lt.mpr h
  refine ⟨finishPlot ((cc.map Prod.fst).map (scatter3D X y cc)) [] [annotMsg3D]
      (some (axisLabel ev 2)) X ev style 3 out_fp, ?_, rfl, rfl, ?_⟩
  · simp [plot_LDA, h3]
  · simp [finishPlot]

/-- Witness for C9: a three-column matrix over two groups, 3D, with
annotation requested and an output path. -/
theorem C9_witness :
    3 ≤ shape1 [[1, 2, 3], [4, 5, 6]] ∧
    ∃ po, plot_LDA [[1, 2, 3], [4, 5, 6]] [Cell.str "A", Cell.str "B"]
        wColors ExpVar.NA true (some ["s1", "s2"]) 3 "plot.png" =
        Except.ok po ∧
      po.infoMsgs = [annotMsg3D] ∧ po.annotations = [] ∧
      po.output = (if "plot.png" ≠ "" then OutputAction.saved "plot.png" "none"
                   else OutputAction.shown) :=
  ⟨by decide, C9_annotation_in_3d_warns_and_continues _ _ _ _ _ _ _ (by decide)⟩

/-- Successful condition lookup yields one label per sample ID. -/
theorem lookupConditions_length (imap : List (String × List String))
    (ci : Nat) :
    ∀ (l conds : List String), lookupConditions imap ci l = some conds →
      conds.length = l.length := by
  intro l
  induction l with
  | nil =>
    intro conds h
    simp [lookupConditions] at h
    simp [← h]
  | cons sid rest ih =>
    intro conds h
    cases hg : lookupGroup imap ci sid with
    | none => simp [lookupConditions, hg] at h
    | some g =>
      cases hr : lookupConditions imap ci rest with
      | none => simp [lookupConditions, hg, hr] at h
      | some cs =>
        simp [lookupConditions, hg, hr] at h
        simp [← h, ih cs hr]

/-- Condition lookup fails as soon as one sample ID has no metadata entry. -/
theorem lookupConditions_none_of_mem (imap : List (String × List String))
    (ci : Nat) (s : String) (hs : imap.lookup s = none) :
    ∀ l : List String, s ∈ l → lookupConditions imap ci l = none := by
  intro l
  induction l with
  | nil => intro hm; simp at hm
  | cons sid rest ih =>
    intro hm
    rcases List.mem_cons.mp hm with he | hm2
    · have : lookupGroup imap ci sid = none := by
        rw [lookupGroup, ← he, hs]; rfl
      simp [lookupConditions, this]
    · cases hg : lookupGroup imap ci sid with
      | none => simp [lookupConditions, hg]
      | some g => simp [lookupConditions, hg, ih hm2]

/-- Condition lookup succeeds when every sample ID has a metadata entry. -/
theorem lookupConditions_isSome_of (imap : List (String × List String))
    (ci : Nat) :
    ∀ l : List String, (∀ s ∈ l, (imap.lookup s).isSome) →
      (lookupConditions imap ci l).isSome := by
  intro l
  induction l with
  | nil => intro _; simp [lookupConditions]
  | cons sid rest ih =>
    intro hall
    obtain ⟨row, hrow⟩ := Option.isSome_iff_exists.mp (hall sid (by simp))
    obtain ⟨cs, hcs⟩ := Option.isSome_iff_exists.mp
      (ih (fun s hs => hall s (List.mem_cons_of_mem _ hs)))
    have hg : lookupGroup imap ci sid = some (row.getD ci "") := by
      rw [lookupGroup, hrow]; rfl
    simp [lookupConditions, hg, hcs]

/-- Condition lookup succeeds exactly when every sample ID in the list has
a metadata entry. -/
theorem lookupConditions_isSome (imap : List (String × List String))
    (ci : Nat) (l : List String) :
    (lookupConditions imap ci l).isSome ↔
      ∀ s ∈ l, (imap.lookup s).isSome := by
  constructor
  · intro h s hs
    by_contra hn
    rw [Option.not_isSome_iff_eq_none] at hn
    rw [lookupConditions_none_of_mem imap ci s hn l hs] at h
    simp at h
  · exact lookupConditions_isSome_of imap ci l

/-- On success, the k-th looked-up condition is the group column entry of
the k-th sample's metadata row. -/
theorem lookupConditions_get? (imap : List (String × List String))
    (ci : Nat) :
    ∀ (l conds : List String), lookupConditions imap ci l = some conds →
      ∀ (k : Nat) (s : String), l.get? k = some s →
        ∃ row, imap.lookup s = some row ∧
          conds.get? k = some (row.getD ci "") := by
  intro l
  induction l with
  | nil => intro conds _ k s hk; simp at hk
  | cons sid rest ih =>
    intro conds h k s hk
    cases hg : lookupGroup imap ci sid with
    | none => simp [lookupConditions, hg] at h
    | some g =>
      cases hr : lookupConditions imap ci rest with
      | none => simp [lookupConditions, hg, hr] at h
      | some cs =>
        simp [lookupConditions, hg, hr] at h
        obtain ⟨row, hrow, hgv⟩ := Option.map_eq_some'.mp hg
        cases k with
        | zero =>
          have hsz : sid = s := by simpa using hk
          refine ⟨row, by rw [← hsz]; exact hrow, ?_⟩
          rw [← h]
          show some g = some (row.getD ci "")
          rw [hgv]
        | succ k =>
          have hk2 : rest.get? k = some s := hk
          obtain ⟨row2, h1, h2⟩ := ih cs hr k s hk2
          refine ⟨row2, h1, ?_⟩
          rw [← h]
          show cs.get? k = some (row2.getD ci "")
          exact h2

/-- Dropping the prepended condition cell recovers the numeric rows. -/
theorem zipWith_cond_drop :
    ∀ (conds : List String) (rows : List (List Rat)),
      conds.length = rows.length →
      (List.zipWith (fun c r => Cell.str c :: r.map Cell.num) conds rows).map
          (fun r => r.drop 1) = rows.map (fun r => r.map Cell.num) := by
  intro conds
  induction conds with
  | nil =>
    intro rows h
    cases rows with
    | nil => simp
    | cons r rs => simp at h
  | cons c cs ih =>
    intro rows h
    cases rows with
    | nil => simp at h
    | cons r rs =>
      simp only [List.length_cons, Nat.succ_inj] at h
      simp only [List.zipWith_cons_cons, List.map_cons, List.drop_succ_cons,
        List.drop_zero]
      rw [ih rs h]

/-- Claim C3: in the distance-matrix input path the numeric block handed
to `run_LDA` equals the rows of the distance-matrix file unchanged (only
the "Condition" column is prepended); the relative-abundance and
arcsine-square-root transforms are applied only in the feature-table path,
whose numeric block equals the transformed table. -/
theorem C3_dm_path_uses_raw_rows (imap : List (String × List String))
    (ci : Nat) (dm : SampleTable) (relAbd arcsineSqrt : SampleTable → SampleTable)
    (b : SampleTable)
    (hdm : dm.index.length = dm.rows.length)
    (hb : (arcsineSqrt (relAbd b)).index.length =
      (arcsineSqrt (relAbd b)).rows.length) :
    (∀ df, assemble_dm imap ci dm = some df →
      df.rows.map (fun r => r.drop 1) =
        dm.rows.map (fun r => r.map Cell.num)) ∧
    (∀ df, assemble_biom relAbd arcsineSqrt imap ci b = some df →
      df.rows.map (fun r => r.drop 1) =
        (arcsineSqrt (relAbd b)).rows.map (fun r => r.map Cell.num)) := by
  constructor
  · intro df h
    obtain ⟨conds, hc, hdf⟩ := Option.map_eq_some'.mp h
    have hlen : conds.length = dm.rows.length :=
      (lookupConditions_length imap ci dm.index conds hc).trans hdm
    rw [← hdf]
    exact zipWith_cond_drop conds dm.rows hlen
  · intro df h
    obtain ⟨conds, hc, hdf⟩ := Option.map_eq_some'.mp h
    have hlen : conds.length = (arcsineSqrt (relAbd b)).rows.length :=
      (lookupConditions_length imap ci _ conds hc).trans hb
    rw [← hdf]
    exact zipWith_cond_drop conds _ hlen

/-- Witness for C3: the concrete distance matrix assembles and its numeric
block is the raw rows. -/
theorem C3_witness :
    ∃ df, assemble_dm wImap 1 wDM = some df ∧
      df.rows.map (fun r => r.drop 1) =
        wDM.rows.map (fun r => r.map Cell.num) := by
  refine ⟨insertCondition ["A", "B", "A", "B"] wDM, by decide, ?_⟩
  exact (C3_dm_path_uses_raw_rows wImap 1 wDM id id wDM (by decide)
    (by decide)).1 _ (by decide)

/-- Claim C7: in both input paths each sample ID of the matrix has its
group label looked up in its mapping-file entry at the configured group
column index, and assembly fails (the lookup raises an uncaught KeyError)
exactly when some sample ID in the matrix has no metadata entry. -/
theorem C7_labels_looked_up_or_fail (imap : List (String × List String))
    (ci : Nat) (dm : SampleTable)
    (relAbd arcsineSqrt : SampleTable → SampleTable) (b : SampleTable)
    (hdm : dm.index.length = dm.rows.length) :
    ((assemble_dm imap ci dm).isSome ↔
      ∀ s ∈ dm.index, (imap.lookup s).isSome) ∧
    ((assemble_biom relAbd arcsineSqrt imap ci b).isSome ↔
      ∀ s ∈ (arcsineSqrt (relAbd b)).index, (imap.lookup s).isSome) ∧
    (∀ df, assemble_dm imap ci dm = some df →
      ∀ (k : Nat) (s : String), dm.index.get? k = some s →
        ∃ row, imap.lookup s = some row ∧
          (df.rows.get? k).bind List.head? =
            some (Cell.str (row.getD ci ""))) := by
  refine ⟨?_, ?_, ?_⟩
  · rw [assemble_dm, Option.isSome_map']
    exact lookupConditions_isSome imap ci dm.index
  · rw [assemble_biom, Option.isSome_map']
    exact lookupConditions_isSome imap ci _
  · intro df h k s hk
    obtain ⟨conds, hc, hdf⟩ := Option.map_eq_some'.mp h
    obtain ⟨row, hrow, hcond⟩ :=
      lookupConditions_get? imap ci dm.index conds hc k s hk
    refine ⟨row, hrow, ?_⟩
    have hklen : k < dm.index.length := by
      by_contra hge
      rw [List.get?_eq_none.mpr (Nat.le_of_not_lt hge)] at hk
      exact Option.noConfusion hk
    have hkr : k < dm.rows.length := hdm ▸ hklen
    obtain ⟨r, hr⟩ : ∃ r, dm.rows.get? k = some r :=
      ⟨_, List.get?_eq_get hkr⟩
    have hkth : df.rows.get? k =
        some (Cell.str (row.getD ci "") :: r.map Cell.num) := by
      rw [← hdf]
      show (List.zipWith _ conds dm.rows).get? k = _
      rw [List.get?_zipWith_eq_some]
      exact ⟨row.getD ci "", r, hcond, hr, rfl⟩
    rw [hkth]
    rfl

/-- Witness for C7: on the concrete inputs, assembly succeeds because every
sample has an entry, and sample s2 gets the looked-up label B; dropping one
metadata entry makes assembly fail. -/
theorem C7_witness :
    ((assemble_dm wImap 1 wDM).isSome ↔
      ∀ s ∈ wDM.index, (wImap.lookup s).isSome) ∧
    (∃ row, wImap.lookup "s2" = some row ∧
      ((insertCondition ["A", "B", "A", "B"] wDM).rows.get? 1).bind
        List.head? = some (Cell.str (row.getD 1 ""))) := by
  have h := C7_labels_looked_up_or_fail wImap 1 wDM id id wDM (by decide)
  exact ⟨h.1, h.2.2 (insertCondition ["A", "B", "A", "B"] wDM) (by decide)
    1 "s2" (by decide)⟩

/-- Claim C8: with the save option set, the assembled dataframe (with the
"Condition" column first and one row per sample) is written to the given
path, and the export is a pure side channel: the LDA results passed on to
plotting are identical with and without the option. -/
theorem C8_save_is_side_channel (lda : LDAModel)
    (imap : List (String × List String)) (ci : Nat) (dm : SampleTable)
    (fp : String) (saveOpt : Option String)
    (hdm : dm.index.length = dm.rows.length) :
    (∀ out, mainDM lda imap ci dm (some fp) = some out →
      ∃ df, out.1 = some (fp, df) ∧ assemble_dm imap ci dm = some df ∧
        df.columns.head? = some "Condition" ∧
        df.rows.length = dm.index.length) ∧
    (mainDM lda imap ci dm saveOpt).map Prod.snd =
      (mainDM lda imap ci dm none).map Prod.snd := by
  constructor
  · intro out h
    obtain ⟨df, hdf, hout⟩ := Option.map_eq_some'.mp h
    refine ⟨df, by simp [← hout], hdf, ?_, ?_⟩
    · obtain ⟨conds, _, hdf2⟩ := Option.map_eq_some'.mp hdf
      simp [← hdf2, insertCondition]
    · obtain ⟨conds, hc, hdf2⟩ := Option.map_eq_some'.mp hdf
      have hlen := lookupConditions_length imap ci dm.index conds hc
      rw [← hdf2]
      show (List.zipWith _ conds dm.rows).length = _
      rw [List.length_zipWith, hlen, ← hdm, Nat.min_self]
  · rw [mainDM, mainDM, Option.map_map, Option.map_map]
    rfl

/-- Witness for C8: on the concrete inputs the saved dataframe is the
assembled one and the LDA results do not depend on the save option. -/
theorem C8_witness :
    (∃ df, (some ("lda_input.txt", insertCondition ["A", "B", "A", "B"] wDM)
          : Option (String × DataFrame)) = some ("lda_input.txt", df) ∧
      assemble_dm wImap 1 wDM = some df ∧
      df.columns.head? = some "Condition" ∧
      df.rows.length = wDM.index.length) ∧
    (mainDM wLDA wImap 1 wDM (some "lda_input.txt")).map Prod.snd =
      (mainDM wLDA wImap 1 wDM none).map Prod.snd := by
  have h := C8_save_is_side_channel wLDA wImap 1 wDM "lda_input.txt"
    (some "lda_input.txt") (by decide)
  refine ⟨?_, h.2⟩
  exact h.1 (some ("lda_input.txt", insertCondition ["A", "B", "A", "B"] wDM),
    run_LDA wLDA (insertCondition ["A", "B", "A", "B"] wDM)) (by decide)

/-- The transformed coordinates returned by `run_LDA` are the fit of the
positional numeric block (all columns after the first). -/
theorem run_LDA_fst (lda : LDAModel) (df : DataFrame) :
    (run_LDA lda df).1 =
      lda.fitTransform (df.rows.map (fun r => r.drop 1))
        (getCol df "Condition") := by
  simp only [run_LDA]
  cases lda.explainedVarianceRatio (df.rows.map (fun r => r.drop 1))
    (getCol df "Condition") <;> rfl

/-- The label vector returned by `run_LDA` is the "Condition" column. -/
theorem run_LDA_labels (lda : LDAModel) (df : DataFrame) :
    (run_LDA lda df).2.1 = getCol df "Condition" := by
  simp only [run_LDA]
  cases lda.explainedVarianceRatio (df.rows.map (fun r => r.drop 1))
    (getCol df "Condition") <;> rfl

/-- Claim C5: for a dataframe whose first column is "Condition", `run_LDA`
fits on the numeric block consisting of all columns except the "Condition"
column, uses the "Condition" column as the label vector, and returns that
label vector unchanged and parallel (same order and length) to the rows of
the transformed coordinates. -/
theorem C5_run_LDA_splits_df (lda : LDAModel) (df : DataFrame)
    (hcond : df.columns.head? = some "Condition")
    (hfit : ∀ X y, (lda.fitTransform X y).length = X.length) :
    (run_LDA lda df).1 =
      lda.fitTransform
        (df.rows.map (fun r => r.eraseIdx (df.columns.indexOf "Condition")))
        (getCol df "Condition") ∧
    (run_LDA lda df).2.1 = df.rows.map (fun r => r.getD 0 (Cell.str "")) ∧
    (run_LDA lda df).1.length = (run_LDA lda df).2.1.length := by
  have hidx : df.columns.indexOf "Condition" = 0 := by
    cases hc : df.columns with
    | nil => rw [hc] at hcond; exact Option.noConfusion hcond
    | cons c t =>
      rw [hc] at hcond
      rw [List.head?_cons] at hcond
      have hce : c = "Condition" := by injection hcond
      rw [hce]
      exact List.indexOf_cons_self _ _
  have herase : df.rows.map (fun r => r.eraseIdx (df.columns.indexOf "Condition"))
      = df.rows.map (fun r => r.drop 1) := by
    rw [hidx]
    exact List.map_congr_left (fun r _ => by
      rw [List.eraseIdx_zero, List.drop_one])
  have hcol : getCol df "Condition" =
      df.rows.map (fun r => r.getD 0 (Cell.str "")) := by
    rw [getCol, hidx]
  refine ⟨by rw [run_LDA_fst, herase], by rw [run_LDA_labels, hcol], ?_⟩
  rw [run_LDA_fst, run_LDA_labels, hfit, getCol, List.length_map,
    List.length_map]

/-- A concrete dataframe whose first column is "Condition". -/
def wDF : DataFrame := insertCondition ["A", "B", "A", "B"] wDM

/-- Witness for C5: the concrete estimator and dataframe. -/
theorem C5_witness :
    (run_LDA wLDA wDF).2.1 = wDF.rows.map (fun r => r.getD 0 (Cell.str "")) ∧
    (run_LDA wLDA wDF).1.length = (run_LDA wLDA wDF).2.1.length := by
  have h := C5_run_LDA_splits_df wLDA wDF (by decide)
    (fun X y => by simp [wLDA])
  exact ⟨h.2.1, h.2.2⟩

/-- A point of a nonempty row whose group label is among the colour-map
keys always gets an annotation (no exception in the loop body). -/
theorem annotatePoint_isSome (cats : List String) (sample : String)
    (point : List Rat) (group : Cell) (hp : point ≠ [])
    (hg : ∃ s, group = Cell.str s ∧ s ∈ cats) :
    (annotatePoint cats sample point group).isSome := by
  obtain ⟨s, hgs, hmem⟩ := hg
  subst hgs
  cases point with
  | nil => exact absurd rfl hp
  | cons p0 ps =>
    rw [annotatePoint]
    by_cases h2 : 2 ≤ (p0 :: ps).length
    · rw [if_pos h2]; rfl
    · rw [if_neg h2]
      have hci : catIndex cats (Cell.str s) = some (cats.indexOf s) := by
        simp [catIndex, hmem]
      simp [hci]

/-- The 2D annotation loop completes when every label is among the
colour-map keys and every coordinate row is nonempty. -/
theorem annotations2D_isSome (cats : List String) :
    ∀ (ss : List String) (X : List (List Rat)) (y : List Cell),
      (∀ g ∈ y, ∃ s, g = Cell.str s ∧ s ∈ cats) →
      (∀ r ∈ X, r ≠ []) →
      ∃ as2, annotations2D cats ss X y = some as2 := by
  intro ss
  induction ss with
  | nil =>
    intro X y _ _
    cases X <;> cases y <;> exact ⟨[], rfl⟩
  | cons s ss ih =>
    intro X y hy hX
    cases X with
    | nil => cases y <;> exact ⟨[], rfl⟩
    | cons p ps =>
      cases y with
      | nil => exact ⟨[], rfl⟩
      | cons g gs =>
        obtain ⟨a, ha⟩ := Option.isSome_iff_exists.mp
          (annotatePoint_isSome cats s p g (hX p (by simp)) (hy g (by simp)))
        obtain ⟨rest, hrest⟩ := ih ps gs
          (fun g2 h => hy g2 (by simp [h])) (fun r h => hX r (by simp [h]))
        exact ⟨a :: rest, by simp [annotations2D, ha, hrest]⟩

/-- Claim C2: when the fitted estimator exposes no
`explained_variance_ratio_`, `run_LDA` returns the "NA" sentinel instead
of raising; with that sentinel every axis label falls back to the bare
"LD<k>" text, and a 2D `plot_LDA` call completes without error and still
saves the figure when an output path was given. -/
theorem C2_na_sentinel_degrades_gracefully (lda : LDAModel) (df : DataFrame)
    (X : List (List Rat)) (y : List Cell) (cc : List (String × String))
    (style : Bool) (sids : Option (List String)) (out_fp : String)
    (hna : lda.explainedVarianceRatio (df.rows.map (fun r => r.drop 1))
      (getCol df "Condition") = none)
    (hout : out_fp ≠ "")
    (hlab : ∀ g ∈ y, ∃ s, g = Cell.str s ∧ s ∈ cc.map Prod.fst)
    (hrow : ∀ r ∈ X, r ≠ []) :
    (run_LDA lda df).2.2 = ExpVar.NA ∧
    (∀ k, axisLabel ExpVar.NA k = AxisLabel.bare (k + 1)) ∧
    (∃ po, plot_LDA X y cc ExpVar.NA style sids 2 out_fp = Except.ok po ∧
      po.xlabel = AxisLabel.bare 1 ∧ po.ylabel = AxisLabel.bare 2 ∧
      po.output = OutputAction.saved out_fp
        (if style then "0.8" else "none")) := by
  refine ⟨?_, fun k => rfl, ?_⟩
  · simp only [run_LDA]
    rw [hna]
  case _ =>
  cases sids with
  | none =>
    refine ⟨finishPlot ((cc.map Prod.fst).enum.map
        (fun p => scatter2D X y cc p.1 p.2)) [] [] none X ExpVar.NA style 2
        out_fp, ?_, rfl, rfl, ?_⟩
    · simp [plot_LDA]
    · simp [finishPlot, hout]
  | some s =>
    obtain ⟨as2, has⟩ := annotations2D_isSome (cc.map Prod.fst) s X y hlab hrow
    refine ⟨finishPlot ((cc.map Prod.fst).enum.map
        (fun p => scatter2D X y cc p.1 p.2)) as2 [] none X ExpVar.NA style 2
        out_fp, ?_, rfl, rfl, ?_⟩
    · simp [plot_LDA, has]
    · simp [finishPlot, hout]

/-- Witness for C2: the concrete estimator returns the sentinel and the
concrete one-axis plot saves with bare labels. -/
theorem C2_witness :
    (run_LDA wLDA wDF).2.2 = ExpVar.NA ∧
    (∃ po, plot_LDA [[1], [2], [3], [4]]
        [Cell.str "A", Cell.str "B", Cell.str "A", Cell.str "B"]
        wColors ExpVar.NA false (some ["s1", "s2", "s3", "s4"]) 2 "plot.png" =
        Except.ok po ∧
      po.xlabel = AxisLabel.bare 1 ∧ po.ylabel = AxisLabel.bare 2 ∧
      po.output = OutputAction.saved "plot.png"
        (if false then "0.8" else "none")) := by
  have h := C2_na_sentinel_degrades_gracefully wLDA wDF [[1], [2], [3], [4]]
    [Cell.str "A", Cell.str "B", Cell.str "A", Cell.str "B"] wColors false
    (some ["s1", "s2", "s3", "s4"]) "plot.png" rfl (by decide)
    (by
      intro g hg
      fin_cases hg
      · exact ⟨"A", rfl, by decide⟩
      · exact ⟨"B", rfl, by decide⟩
      · exact ⟨"A", rfl, by decide⟩
      · exact ⟨"B", rfl, by decide⟩)
    (by intro r hr; fin_cases hr <;> simp)
  exact ⟨h.1, h.2.2⟩

/-- The keys of the auto-assigned colour map are exactly the categories,
in order. -/
theorem autoClassColors_keys (cats : List String) :
    (autoClassColors cats).map Prod.fst = cats := by
  rw [autoClassColors, List.map_map]
  have hcomp : (Prod.fst ∘ fun p : Nat × String =>
      (p.2, Set3_12_hex.getD (p.1 % 12) "")) = Prod.snd := rfl
  rw [hcomp, List.enum_map_snd]

/-- A successful assoc-list lookup comes from an element of the list. -/
theorem lookup_mem (l : List (String × List String)) (k : String)
    (v : List String) : l.lookup k = some v → (k, v) ∈ l := by
  induction l with
  | nil => intro h; exact Option.noConfusion h
  | cons p rest ih =>
    obtain ⟨a, b⟩ := p
    intro h
    rw [List.lookup_cons] at h
    cases hbe : (k == a) with
    | true =>
      rw [hbe] at h
      have hk : k = a := by simpa using hbe
      have hv : b = v := by injection h
      rw [hk, hv]
      exact List.mem_cons_self _ _
    | false =>
      rw [hbe] at h
      exact List.mem_cons_of_mem _ (ih h)

/-- Claim C6: with no colour column supplied, the auto-assigned colour map
has one entry per distinct group value of the metadata group column,
assigned by cycling the fixed 12-colour palette, and every group label
obtained by a metadata lookup at that column is a key of the map. -/
theorem C6_auto_colors_cover_groups (imap : List (String × List String))
    (ci : Nat) :
    ((autoClassColors (categoriesOf imap ci)).map Prod.fst =
      categoriesOf imap ci) ∧
    (∀ (k : Nat) (c : String), (categoriesOf imap ci).get? k = some c →
      (autoClassColors (categoriesOf imap ci)).get? k =
        some (c, Set3_12_hex.getD (k % 12) "")) ∧
    (∀ sid row, imap.lookup sid = some row →
      row.getD ci "" ∈ (autoClassColors (categoriesOf imap ci)).map Prod.fst) := by
  refine ⟨autoClassColors_keys _, ?_, ?_⟩
  · intro k c hc
    rw [List.get?_eq_getElem?] at hc
    rw [autoClassColors, List.get?_eq_getElem?, List.getElem?_map,
      List.getElem?_enum, hc]
    rfl
  · intro sid row hrow
    rw [autoClassColors_keys]
    rw [categoriesOf, List.mem_dedup]
    exact List.mem_map.mpr ⟨(sid, row), lookup_mem imap sid row hrow, rfl⟩

/-- Witness for C6: group A of sample s1 in the concrete metadata is a key
of the auto-assigned colour map. -/
theorem C6_witness :
    "A" ∈ (autoClassColors (categoriesOf wImap 1)).map Prod.fst := by
  have h := (C6_auto_colors_cover_groups wImap 1).2.2 "s1" ["s1", "A"]
    (by decide)
  exact h

/-- Inversion of a successful 2D `plot_LDA` call: the scatter list is the
per-group loop over the colour-map keys, the y-limit is set exactly in the
single-column case, and the recorded annotations are those of the
annotation loop. -/
theorem plot_LDA_2d_ok (X : List (List Rat)) (y : List Cell)
    (cc : List (String × String)) (ev : ExpVar) (style : Bool)
    (sids : Option (List String)) (out_fp : String) (po : PlotOutput)
    (hok : plot_LDA X y cc ev style sids 2 out_fp = Except.ok po) :
    po.scatters = (cc.map Prod.fst).enum.map
      (fun p => scatter2D X y cc p.1 p.2) ∧
    po.ylim = (if shape1 X = 1 then some ((1 : Rat) / 2, (5 : Rat) / 2)
      else none) ∧
    (∀ s, sids = some s →
      annotations2D (cc.map Prod.fst) s X y = some po.annotations) := by
  cases sids with
  | none =>
    simp only [plot_LDA, if_neg (show ¬ (2 : Nat) = 3 by decide)] at hok
    have hpo := Except.ok.inj hok
    rw [← hpo]
    exact ⟨rfl, rfl, fun s hs => Option.noConfusion hs⟩
  | some s0 =>
    simp only [plot_LDA, if_neg (show ¬ (2 : Nat) = 3 by decide)] at hok
    cases has : annotations2D (cc.map Prod.fst) s0 X y with
    | none =>
      rw [has] at hok
      exact Except.noConfusion hok
    | some as2 =>
      rw [has] at hok
      have hpo := Except.ok.inj hok
      rw [← hpo]
      refine ⟨rfl, rfl, ?_⟩
      intro s hs
      have hss : s0 = s := by injection hs
      rw [← hss]
      exact has

/-- Claim C4: in 2D mode with a single-column coordinate matrix each group
is scattered at the constant pseudo-y of its ordinal index plus one and
the y-axis range is fixed to (0.5, 2.5); with two or more columns the real
second column is plotted and no range is imposed. -/
theorem C4_single_axis_pseudo_y (X : List (List Rat)) (y : List Cell)
    (cc : List (String × String)) (ev : ExpVar) (style : Bool)
    (sids : Option (List String)) (out_fp : String) (po : PlotOutput)
    (hok : plot_LDA X y cc ev style sids 2 out_fp = Except.ok po) :
    (shape1 X = 1 →
      po.ylim = some ((1 : Rat) / 2, (5 : Rat) / 2) ∧
      ∀ (i : Nat) (sc : Scatter), po.scatters.get? i = some sc →
        sc.ys = List.replicate sc.xs.length ((i : Rat) + 1)) ∧
    (2 ≤ shape1 X →
      po.ylim = none ∧
      ∀ (i : Nat) (sc : Scatter), po.scatters.get? i = some sc →
        sc.ys = filterColumn X y 1 sc.group) := by
  obtain ⟨hsc, hyl, -⟩ := plot_LDA_2d_ok X y cc ev style sids out_fp po hok
  have hget : ∀ (i : Nat) (sc : Scatter), po.scatters.get? i = some sc →
      ∃ c, (cc.map Prod.fst)[i]? = some c ∧ sc = scatter2D X y cc i c := by
    intro i sc hisc
    rw [hsc, List.get?_eq_getElem?, List.getElem?_map, List.getElem?_enum]
      at hisc
    cases hci : (cc.map Prod.fst)[i]? with
    | none => rw [hci] at hisc; exact Option.noConfusion hisc
    | some c =>
      rw [hci] at hisc
      simp only [Option.map_some'] at hisc
      exact ⟨c, rfl, (Option.some.inj hisc).symm⟩
  constructor
  · intro h1
    refine ⟨by rw [hyl, if_pos h1], ?_⟩
    intro i sc hisc
    obtain ⟨c, -, hsc2⟩ := hget i sc hisc
    rw [hsc2]
    simp [scatter2D, h1]
  · intro h2
    have hne : ¬ shape1 X = 1 := by omega
    refine ⟨by rw [hyl, if_neg hne], ?_⟩
    intro i sc hisc
    obtain ⟨c, -, hsc2⟩ := hget i sc hisc
    rw [hsc2]
    simp [scatter2D, hne]

/-- The plot recorded for the concrete one-column run used as witness. -/
def wPO : PlotOutput :=
  { infoMsgs := []
    scatters := [⟨"A", "#8DD3C7", [1, 3],
                   List.replicate 2 (((0 : Nat) : Rat) + 1), none⟩,
                 ⟨"B", "#FFFFB3", [2, 4],
                   List.replicate 2 (((1 : Nat) : Rat) + 1), none⟩]
    annotations := []
    ylim := some ((1 : Rat) / 2, (5 : Rat) / 2)
    xlabel := AxisLabel.bare 1
    ylabel := AxisLabel.bare 2
    zlabel := none
    output := OutputAction.shown }

/-- Witness for C4: the concrete one-column plot has the fixed y-limits
and every scatter sits at its pseudo-y. -/
theorem C4_witness :
    wPO.ylim = some ((1 : Rat) / 2, (5 : Rat) / 2) ∧
    ∀ (i : Nat) (sc : Scatter), wPO.scatters.get? i = some sc →
      sc.ys = List.replicate sc.xs.length ((i : Rat) + 1) :=
  (C4_single_axis_pseudo_y [[1], [2], [3], [4]]
    [Cell.str "A", Cell.str "B", Cell.str "A", Cell.str "B"]
    wColors ExpVar.NA false none "" wPO (by rfl)).1 rfl

/-- The k-th recorded annotation comes from the k-th (sample ID, point,
label) triple of the zipped lists. -/
theorem annotations2D_get? (cats : List String) :
    ∀ (ss : List String) (X : List (List Rat)) (y : List Cell)
      (as2 : List (String × Rat × Rat)),
      annotations2D cats ss X y = some as2 →
      ∀ (k : Nat) (a : String × Rat × Rat), as2.get? k = some a →
        ∃ sample point group, ss.get? k = some sample ∧
          X.get? k = some point ∧ y.get? k = some group ∧
          annotatePoint cats sample point group = some a := by
  intro ss
  induction ss with
  | nil =>
    intro X y as2 h k a hk
    cases X <;> cases y <;>
      (simp [annotations2D] at h; subst h; simp at hk)
  | cons s0 ss ih =>
    intro X y as2 h k a hk
    cases X with
    | nil =>
      simp [annotations2D] at h
      subst h
      simp at hk
    | cons p ps =>
      cases y with
      | nil =>
        simp [annotations2D] at h
        subst h
        simp at hk
      | cons g gs =>
        cases ha : annotatePoint cats s0 p g with
        | none => rw [annotations2D, ha] at h; simp at h
        | some a0 =>
          cases hr : annotations2D cats ss ps gs with
          | none => rw [annotations2D, ha, hr] at h; simp at h
          | some rest =>
            rw [annotations2D, ha, hr] at h
            simp only [Option.some_bind, Option.map_some'] at h
            have hlist : a0 :: rest = as2 := by simpa using h
            cases k with
            | zero =>
              have haa : a0 = a := by
                rw [← hlist] at hk
                simpa using hk
              exact ⟨s0, p, g, rfl, rfl, rfl, haa ▸ ha⟩
            | succ k =>
              have hk2 : rest.get? k = some a := by
                rw [← hlist] at hk
                simpa using hk
              obtain ⟨sa, pt, gr, h1, h2, h3, h4⟩ := ih ps gs rest hr k a hk2
              exact ⟨sa, pt, gr, h1, h2, h3, h4⟩

/-- Claim C10: in 2D annotation mode over a single-column matrix, the
substituted annotation y-coordinate of each sample (its group's position
among the colour-map keys plus one) equals the constant pseudo-y at which
that group was scattered, so each annotation sits on its own data point. -/
theorem C10_annotation_matches_pseudo_y (X : List (List Rat)) (y : List Cell)
    (cc : List (String × String)) (ev : ExpVar) (style : Bool)
    (ss : List String) (out_fp : String) (po : PlotOutput)
    (hnd : (cc.map Prod.fst).Nodup)
    (h1 : shape1 X = 1) (hrect : ∀ r ∈ X, r.length = 1)
    (hok : plot_LDA X y cc ev style (some ss) 2 out_fp = Except.ok po) :
    ∀ (k : Nat) (sample : String) (x yv : Rat),
      po.annotations.get? k = some (sample, x, yv) →
      ∃ g, y.get? k = some (Cell.str g) ∧
        yv = ((cc.map Prod.fst).indexOf g : Rat) + 1 ∧
        ∃ sc, po.scatters.get? ((cc.map Prod.fst).indexOf g) = some sc ∧
          sc.group = g ∧ sc.ys = List.replicate sc.xs.length yv := by
  obtain ⟨hsc, -, hann⟩ := plot_LDA_2d_ok X y cc ev style (some ss) out_fp
    po hok
  have has := hann ss rfl
  intro k sample x yv hk
  obtain ⟨s0, p, g0, hss, hX, hy, hap⟩ :=
    annotations2D_get? (cc.map Prod.fst) ss X y po.annotations has k _ hk
  have hplen : p.length = 1 := hrect p (List.get?_mem hX)
  have hp2 : ¬ 2 ≤ p.length := by omega
  cases p with
  | nil => simp at hplen
  | cons p0 pt =>
    rw [annotatePoint, if_neg hp2] at hap
    simp only [List.head?_cons, Option.some_bind] at hap
    cases g0 with
    | num q => simp [catIndex] at hap
    | str g =>
      by_cases hmem : g ∈ (cc.map Prod.fst)
      · rw [show catIndex (cc.map Prod.fst) (Cell.str g) =
            some ((cc.map Prod.fst).indexOf g) by simp [catIndex, hmem]]
          at hap
        have htr : (s0, p0,
            ((List.indexOf g (List.map Prod.fst cc) : Nat) : Rat) + 1) =
            (sample, x, yv) := by simpa using hap
        have hs0 : s0 = sample := congrArg Prod.fst htr
        have hyv : ((cc.map Prod.fst).indexOf g : Rat) + 1 = yv :=
          congrArg (fun t => t.2.2) htr
        refine ⟨g, hy, hyv.symm, ?_⟩
        refine ⟨scatter2D X y cc ((cc.map Prod.fst).indexOf g) g, ?_, rfl, ?_⟩
        · rw [hsc, List.get?_eq_getElem?, List.getElem?_map,
            List.getElem?_enum, List.getElem?_indexOf hmem]
          rfl
        · rw [← hyv]
          simp [scatter2D, h1]
      · rw [show catIndex (cc.map Prod.fst) (Cell.str g) = none by
          simp [catIndex, hmem]] at hap
        simp at hap

/-- The plot recorded for the concrete annotated one-column run used as
witness for the annotation claim. -/
def wPO2 : PlotOutput :=
  { infoMsgs := []
    scatters := [⟨"A", "#8DD3C7", [1, 3],
                   List.replicate 2 (((0 : Nat) : Rat) + 1), none⟩,
                 ⟨"B", "#FFFFB3", [2, 4],
                   List.replicate 2 (((1 : Nat) : Rat) + 1), none⟩]
    annotations := [("s1", 1, ((0 : Nat) : Rat) + 1),
                    ("s2", 2, ((1 : Nat) : Rat) + 1),
                    ("s3", 3, ((0 : Nat) : Rat) + 1),
                    ("s4", 4, ((1 : Nat) : Rat) + 1)]
    ylim := some ((1 : Rat) / 2, (5 : Rat) / 2)
    xlabel := AxisLabel.bare 1
    ylabel := AxisLabel.bare 2
    zlabel := none
    output := OutputAction.saved "plot.png" "none" }

/-- Witness for C10: the first annotation of the concrete run sits at the
pseudo-y of its group's scatter. -/
theorem C10_witness :
    ∃ g, ([Cell.str "A", Cell.str "B", Cell.str "A", Cell.str "B"].get? 0) =
        some (Cell.str g) ∧
      ((0 : Nat) : Rat) + 1 = ((wColors.map Prod.fst).indexOf g : Rat) + 1 ∧
      ∃ sc, wPO2.scatters.get? ((wColors.map Prod.fst).indexOf g) = some sc ∧
        sc.group = g ∧
        sc.ys = List.replicate sc.xs.length (((0 : Nat) : Rat) + 1) :=
  C10_annotation_matches_pseudo_y [[1], [2], [3], [4]]
    [Cell.str "A", Cell.str "B", Cell.str "A", Cell.str "B"]
    wColors ExpVar.NA false ["s1", "s2", "s3", "s4"] "plot.png" wPO2
    (by decide) rfl (by decide) (by rfl) 0 "s1" 1 (((0 : Nat) : Rat) + 1)
    (by rfl)

end LDATools
